import Mathlib

/-!
Shallow embedding of `tools/generate-governor-config.py` (a Python 2 script:
it uses the `print>>sys.stderr` statement form) from the mce repository,
together with proofs about the properties claimed in its specification.

Modelling conventions:
* a filesystem is a partial map from path to file text (`none` = missing or
  unreadable);
* fallible Python operations are embedded in `Except PyErr`;
* Python 2 `dict` iteration order for string keys (as produced by
  `hits.keys()`) is modelled faithfully after CPython 2.7
  (`Objects/dictobject.c` and `Objects/stringobject.c`, default build without
  hash randomization) for tables that have not been resized, i.e. fewer than
  six distinct keys;
* paths handled by the script are ASCII, so Python 2 byte strings are
  modelled by `String` with bytes given by `Char.toNat`.
-/

/-- Errors a run of the script can raise: `IOError` from `open`/`read`,
`ValueError` from `int()`, `IndexError` from list indexing, `KeyError` from
dict lookup. -/
inductive PyErr : Type where
  | ioError (path : String)
  | valueError
  | indexError
  | keyError (key : String)
deriving DecidableEq, Repr

instance {ε α : Type} [DecidableEq ε] [DecidableEq α] : DecidableEq (Except ε α) := fun x y =>
  match x, y with
  | .ok a, .ok b => decidable_of_iff (a = b) (by simp)
  | .error a, .error b => decidable_of_iff (a = b) (by simp)
  | .ok _, .error _ => isFalse (by simp)
  | .error _, .ok _ => isFalse (by simp)

/-- Split a character list into maximal whitespace-free words (the behaviour
of Python `str.split()` with no argument on the file contents the script
reads); `acc` carries the current word, reversed. -/
def wordsAux : List Char → List Char → List String
  | [], acc => if acc = [] then [] else [String.mk acc.reverse]
  | c :: cs, acc =>
    if c.isWhitespace then
      if acc = [] then wordsAux cs []
      else String.mk acc.reverse :: wordsAux cs []
    else wordsAux cs (c :: acc)

/-- Python `str.split()` with no argument: split on whitespace runs, dropping
empty pieces. -/
def pySplit (s : String) : List String := wordsAux s.data []

/-- Does the string start with the given character? -/
def strHeadIs (c : Char) (s : String) : Bool :=
  match s.data with
  | [] => false
  | a :: _ => a = c

/-- Does the string end with the given character? -/
def strLastIs (c : Char) (s : String) : Bool :=
  match s.data.getLast? with
  | some a => a = c
  | none => false

/-- Python `os.path.join(b, p)`: `p` replaces everything when absolute,
otherwise it is appended with a separator unless `b` is empty or already
ends in one. -/
def pyJoin (b p : String) : String :=
  if strHeadIs '/' p then p
  else if b = "" then p
  else if strLastIs '/' b then b ++ p
  else b ++ "/" ++ p

/-- Decimal digits to a number, `none` when empty or a non-digit occurs. -/
def digitsToNat (l : List Char) : Option Nat :=
  if l = [] then none
  else
    l.foldl
      (fun acc c =>
        match acc with
        | none => none
        | some n => if c.isDigit then some (n * 10 + (c.toNat - 48)) else none)
      (some 0)

/-- Python `int(token)` on a whitespace-free token (optional sign and
decimal digits); a token that does not parse raises `ValueError`. -/
def pyInt (s : String) : Except PyErr Int :=
  match s.data with
  | '-' :: rest =>
    match digitsToNat rest with
    | some n => .ok (-(n : Int))
    | none => .error .valueError
  | '+' :: rest =>
    match digitsToNat rest with
    | some n => .ok ((n : Int))
    | none => .error .valueError
  | l =>
    match digitsToNat l with
    | some n => .ok ((n : Int))
    | none => .error .valueError

/-- Python list indexing `l[i]`, including negative indices; out of range
raises `IndexError`. -/
def pyGet (l : List Int) (i : Int) : Except PyErr Int :=
  if h : 0 ≤ i ∧ i < (l.length : Int) then
    .ok (l.get ⟨i.toNat, by omega⟩)
  else if h2 : -(l.length : Int) ≤ i ∧ i < 0 then
    .ok (l.get ⟨(i + (l.length : Int)).toNat, by omega⟩)
  else .error .indexError

/-- Filesystem model: file text by path, `none` when missing or unreadable. -/
def FS : Type := String → Option String

/-- Embedding of `read_values(path)`: `open(path).read().split()`. -/
def read_values (fs : FS) (path : String) : Except PyErr (List String) :=
  match fs path with
  | some text => .ok (pySplit text)
  | none => .error (.ioError path)

/-- Governor preference list `PREFER_PERFORMANCE` from the script. -/
def PREFER_PERFORMANCE : List String :=
  ["performance", "interactive", "ondemand", "conservative", "userspace", "powersave"]

/-- Governor preference list `PREFER_INTERACTIVE` from the script. -/
def PREFER_INTERACTIVE : List String :=
  ["interactive", "ondemand", "conservative", "performance", "userspace", "powersave"]

/-- Governor preference list `PREFER_POWERSAVE` from the script. -/
def PREFER_POWERSAVE : List String :=
  ["powersave", "conservative", "interactive", "ondemand", "performance", "userspace"]

/-- The `CONFIG_BLOCKS` tuple: (scale percentage, block name, preference list). -/
def CONFIG_BLOCKS : List (Nat × String × List String) :=
  [(80, "Performance", PREFER_PERFORMANCE),
   (50, "Interactive", PREFER_INTERACTIVE),
   (0, "Inactive", PREFER_INTERACTIVE),
   (0, "Powersave", PREFER_POWERSAVE)]

/-- Embedding of `secname(s)`. -/
def secname (s : String) : String := "[CPUScalingGovernor" ++ s ++ "]"

/-- The global `INI_DATA` dict, as an association list from section header to
its lines.  Rendering only looks sections up by name, so association-list
order is irrelevant to every observable of the model. -/
abbrev Ini : Type := List (String × List String)

/-- Lookup in `INI_DATA`. -/
def iniGet : Ini → String → Option (List String)
  | [], _ => none
  | (k, v) :: rest, key => if k = key then some v else iniGet rest key

/-- Update (or insert) a key in `INI_DATA`. -/
def iniSet : Ini → String → List String → Ini
  | [], key, v => [(key, v)]
  | (k, w) :: rest, key, v =>
    if k = key then (k, v) :: rest else (k, w) :: iniSet rest key v

/-- Line `"path%d=%s"` as built by `add_val`. -/
def mkPathLine (n : Nat) (p : String) : String := "path" ++ toString n ++ "=" ++ p

/-- Line `"data%d=%s"` as built by `add_val`. -/
def mkDataLine (n : Nat) (d : String) : String := "data" ++ toString n ++ "=" ++ d

/-- Embedding of `add_val(s,b,p,d)`: ensure the section exists (`add_sec`),
compute `n = len(s)//2 + 1`, and append the `pathN`/`dataN` line pair. -/
def addVal (ini : Ini) (s b p d : String) : Ini :=
  let key := secname s
  let lines := (iniGet ini key).getD []
  let n := lines.length / 2 + 1
  iniSet ini key (lines ++ [mkPathLine n (pyJoin b p), mkDataLine n d])

/-- Embedding of `select(available, wanted)`: first entry of `wanted` that is
a member of `available`, else `None`. -/
def select (available : List String) : List String → Option String
  | [] => none
  | w :: ws => if w ∈ available then some w else select available ws

/-- State of one probe file for the `writetest` model: whether it exists, is
readable, is writable (opening for write truncates it), whether the write
call itself fails mid-way, and its current text. -/
structure FileState where
  present : Bool
  readable : Bool
  writable : Bool
  writeOpFails : Bool
  content : String
deriving DecidableEq, Repr

/-- Embedding of `writetest(path)`: read the file, write the same data back,
catching every exception and turning it into a `False` result.  The returned
`FileState` is the file after the attempt (opening for write truncates before
a failing write call). -/
def writetest (f : FileState) : Bool × FileState :=
  if f.present ∧ f.readable then
    if f.writable then
      if f.writeOpFails then (false, { f with content := "" })
      else (true, { f with content := f.content })
    else (false, f)
  else (false, f)

/-- Accumulated state of `generate_config_data`: the `INI_DATA` dict and the
lines printed to stderr so far. -/
structure GenState where
  ini : Ini
  log : List String
deriving DecidableEq

/-- Initial empty state: empty `INI_DATA`, nothing printed. -/
def initState : GenState := ⟨[], []⟩

/-- The `maxval = frequencies[-1]` computation from `generate_config_data`. -/
def freqMax (freqs : List Int) : Except PyErr Int := pyGet freqs (-1)

/-- The `minval = frequencies[(M-1)*scale//100]` computation from
`generate_config_data` (`M = len(frequencies)`; Python `//` is floor
division). -/
def freqMin (freqs : List Int) (scale : Nat) : Except PyErr Int :=
  pyGet freqs (Int.fdiv (((freqs.length : Int) - 1) * (scale : Int)) 100)

/-- Body of the `for scale,name,wanted in CONFIG_BLOCKS` loop inside
`generate_config_data`: select a governor (a falsy result — `None` or the
empty string — prints the diagnostic instead of adding the setting), then add
the max- and min-frequency settings. -/
def genBlock (dirpath : String) (freqs : List Int) (governors : List String)
    (st : GenState) (blk : Nat × String × List String) : Except PyErr GenState :=
  let scale := blk.1
  let name := blk.2.1
  let wanted := blk.2.2
  let st1 :=
    match select governors wanted with
    | some g =>
      if g = "" then { st with log := st.log ++ ["# no governor: " ++ dirpath] }
      else { st with ini := addVal st.ini name dirpath "scaling_governor" g }
    | none => { st with log := st.log ++ ["# no governor: " ++ dirpath] }
  match freqMax freqs with
  | .error e => .error e
  | .ok maxval =>
    match freqMin freqs scale with
    | .error e => .error e
    | .ok minval =>
      let st2 := { st1 with ini := addVal st1.ini name dirpath "scaling_max_freq" (toString maxval) }
      .ok { st2 with ini := addVal st2.ini name dirpath "scaling_min_freq" (toString minval) }

/-- Embedding of `generate_config_data(dirpath)`: read and parse the
frequency enumeration, read the governor enumeration, then run every config
block in order. -/
def generate_config_data (fs : FS) (st : GenState) (dirpath : String) :
    Except PyErr GenState := do
  let ftoks ← read_values fs (pyJoin dirpath "scaling_available_frequencies")
  let freqs ← ftoks.mapM pyInt
  let governors ← read_values fs (pyJoin dirpath "scaling_available_governors")
  CONFIG_BLOCKS.foldlM (genBlock dirpath freqs governors) st

/-- The `for dirpath in paths: generate_config_data(dirpath)` loop. -/
def runExplicit (fs : FS) (paths : List String) (st : GenState) :
    Except PyErr GenState :=
  paths.foldlM (generate_config_data fs) st

/-- Output of the discovery loop: canonical directories probed (in first-seen
order), stderr lines, and the insertion order of the `hits` dict. -/
structure DiscOut where
  probes : List String
  log : List String
  hits : List String
deriving DecidableEq, Repr

/-- Embedding of the discovery loop: for each glob result, take its real
path, skip it if already `done`, otherwise write-test
`<dir>/scaling_min_freq` and record inclusion or exclusion.  `rp` models
`os.path.realpath` and `wt` the outcome of `writetest` on a probe file. -/
def discover (rp : String → String) (wt : String → Bool) :
    List String → List String → DiscOut
  | _, [] => ⟨[], [], []⟩
  | seen, g :: gs =>
    let d := rp g
    if d ∈ seen then discover rp wt seen gs
    else
      let rest := discover rp wt (d :: seen) gs
      if wt (pyJoin d "scaling_min_freq") then
        ⟨d :: rest.probes, ("# including: " ++ d) :: rest.log, d :: rest.hits⟩
      else
        ⟨d :: rest.probes, ("# excluding: " ++ d) :: rest.log, rest.hits⟩

/-- CPython 2.7 string hash (64-bit build, hash randomization off), on the
byte values of the string: `x = s[0] << 7`, then
`x = (1000003*x) ^ byte` over all bytes, then `x ^= len`, with `-1`
mapped to `-2`; all arithmetic is on the 64-bit two's-complement bit
pattern, represented here as a natural number below `2^64`. -/
def pyHashBytes (l : List Nat) : Nat :=
  match l with
  | [] => 0
  | b :: _ =>
    let x := l.foldl (fun x c => ((1000003 * x) ^^^ c) % 2 ^ 64) (b * 128)
    let x := x ^^^ l.length
    if x = 2 ^ 64 - 1 then 2 ^ 64 - 2 else x

/-- Hash of one of the script's (ASCII) strings. -/
def pyHash (s : String) : Nat := pyHashBytes (s.data.map Char.toNat)

/-- CPython 2.7 open-addressing probe: starting from `i = hash & mask` with
`perturb = hash`, repeat `i = 5*i + perturb + 1; perturb >>= 5` until the
slot `i & mask` is empty or holds the key; table size 8 (`mask = 7`).  Fuel
bounds the search; 64 steps are far more than enough for a table that is at
most 5/8 full. -/
def pyProbe (k : String) : Nat → List (Option String) → Nat → Nat → Nat
  | 0, _, i, _ => i % 8
  | fuel + 1, table, i, perturb =>
    match table.getD (i % 8) none with
    | none => i % 8
    | some k2 =>
      if k2 = k then i % 8
      else pyProbe k fuel table ((5 * i + perturb + 1) % 2 ^ 64) (perturb / 32)

/-- Insert a key into a size-8 CPython 2.7 dict table. -/
def pyTableInsert (table : List (Option String)) (k : String) : List (Option String) :=
  let h := pyHash k
  table.set (pyProbe k 64 table (h % 8) h) (some k)

/-- Iteration order of `dict.keys()` for a CPython 2.7 dict built by
inserting `keys` in order into a fresh dict (valid while no resize occurs,
i.e. fewer than six distinct keys): slots are scanned in table order. -/
def pyDictKeys (keys : List String) : List String :=
  (keys.foldl pyTableInsert (List.replicate 8 none)).filterMap id

/-- Directories the main program iterates over: the command-line arguments
if any were given, otherwise `hits.keys()` of the discovery dict. -/
def effectivePaths (globList : List String) (rp : String → String)
    (wt : String → Bool) (argv : List String) : List String :=
  if argv = [] then pyDictKeys (discover rp wt [] globList).hits else argv

/-- The fixed first output line. -/
def headerLine : String := "# Automatically generated MCE CPU scaling config file"

/-- Rendering loop over the config blocks: print the section header, then
look the section up in `INI_DATA` (a missing section raises `KeyError` after
the header was already printed), print its lines and a blank line. -/
def renderBlocks (ini : Ini) : List (Nat × String × List String) →
    List String × Except PyErr Unit
  | [] => ([], .ok ())
  | blk :: rest =>
    let k := secname blk.2.1
    match iniGet ini k with
    | none => ([k], .error (.keyError k))
    | some lines =>
      let r := renderBlocks ini rest
      (k :: (lines ++ [""] ++ r.1), r.2)

/-- Embedding of the output phase of `__main__`. -/
def render (ini : Ini) : List String × Except PyErr Unit :=
  let r := renderBlocks ini CONFIG_BLOCKS
  (headerLine :: "" :: r.1, r.2)

/-- Full observable outcome of a run: stdout lines, stderr lines, and
whether the run finished or raised. -/
structure RunOut where
  stdoutLines : List String
  stderrLines : List String
  result : Except PyErr Unit
deriving DecidableEq

/-- Embedding of `__main__`: choose the directory list (explicit arguments,
or glob discovery), generate config data for each directory, then render.
Nothing is printed to stdout before the rendering phase; on an uncaught
error the run stops with that error. -/
def runMain (fs : FS) (globList : List String) (rp : String → String)
    (wt : String → Bool) (argv : List String) : RunOut :=
  let dlog := if argv = [] then (discover rp wt [] globList).log else []
  match runExplicit fs (effectivePaths globList rp wt argv) initState with
  | .error e => ⟨[], dlog, .error e⟩
  | .ok st =>
    let r := render st.ini
    ⟨r.1, dlog ++ st.log, r.2⟩

/-- Specification-side description of a well-numbered run of section lines:
`numberedFrom n pairs` is the line list in which the i-th pair `(p, d)` of
`pairs` appears as `path(n+i)=p` followed by `data(n+i)=d`. -/
def numberedFrom : Nat → List (String × String) → List String
  | _, [] => []
  | n, (p, d) :: rest => mkPathLine n p :: mkDataLine n d :: numberedFrom (n + 1) rest

/-- Number of path/data pairs currently stored under a section key. -/
def pairCount (ini : Ini) (key : String) : Nat :=
  ((iniGet ini key).getD []).length / 2

/-- Every section of `ini` is an even, consecutively numbered run of
path/data pairs starting at suffix 1. -/
def Numbered (ini : Ini) : Prop :=
  ∀ key entry, iniGet ini key = some entry → ∃ ps, entry = numberedFrom 1 ps

/-- Arguments of one `add_val(s,b,p,d)` call. -/
structure AddOp where
  sec : String
  base : String
  file : String
  dat : String
deriving DecidableEq, Repr

/-- Apply a sequence of `add_val` calls to an `INI_DATA` state. -/
def applyOps (ini : Ini) : List AddOp → Ini
  | [] => ini
  | op :: rest => applyOps (addVal ini op.sec op.base op.file op.dat) rest

/-- First-seen deduplication relative to an already-seen set: the order in
which the discovery loop probes canonical directories. -/
def firstSeen (seen : List String) : List String → List String
  | [] => []
  | x :: xs => if x ∈ seen then firstSeen seen xs else x :: firstSeen (x :: seen) xs

/-- The stderr line the discovery loop prints for a probed directory. -/
def tagLine (wt : String → Bool) (d : String) : String :=
  if wt (pyJoin d "scaling_min_freq") then "# including: " ++ d
  else "# excluding: " ++ d

/-- The two enumeration reads of `generate_config_data`, factored out:
parsed frequency list and governor list of one directory. -/
def dirData (fs : FS) (dirpath : String) : Except PyErr (List Int × List String) := do
  let ftoks ← read_values fs (pyJoin dirpath "scaling_available_frequencies")
  let freqs ← ftoks.mapM pyInt
  let governors ← read_values fs (pyJoin dirpath "scaling_available_governors")
  pure (freqs, governors)

/-- The unnumbered path/data pairs one config block contributes for one
directory, given its frequency and governor enumerations. -/
def blockPairs (dirpath : String) (freqs : List Int) (governors : List String)
    (scale : Nat) (wanted : List String) : List (String × String) :=
  (match select governors wanted with
   | some g => if g = "" then [] else [(pyJoin dirpath "scaling_governor", g)]
   | none => []) ++
  (match freqMax freqs, freqMin freqs scale with
   | .ok mx, .ok mn =>
     [(pyJoin dirpath "scaling_max_freq", toString mx),
      (pyJoin dirpath "scaling_min_freq", toString mn)]
   | _, _ => [])

/-- The unnumbered pairs one config block contributes for one directory,
read from the filesystem (meaningful when the enumeration reads succeed). -/
def dirPairs (fs : FS) (dirpath : String) (scale : Nat) (wanted : List String) :
    List (String × String) :=
  match dirData fs dirpath with
  | .ok fg => blockPairs dirpath fg.1 fg.2 scale wanted
  | .error _ => []

/-- Extract the `INI_DATA` dict from a possibly failed generation run. -/
def genIni (x : Except PyErr GenState) : Ini :=
  match x with
  | .ok st => st.ini
  | .error _ => []

/-- Logical path of the cpu0 control directory, as matched by the glob. -/
def cpu0Path : String := "/sys/devices/system/cpu/cpu0/cpufreq"

/-- Logical path of the cpu1 control directory, as matched by the glob. -/
def cpu1Path : String := "/sys/devices/system/cpu/cpu1/cpufreq"

/-- Concrete two-directory filesystem used by witnesses: cpu0 and cpu1 are
distinct physical control directories with their own enumerations. -/
def fsC : FS := fun p =>
  if p = cpu0Path ++ "/scaling_available_frequencies" then some "200000 400000"
  else if p = cpu0Path ++ "/scaling_available_governors" then some "performance powersave"
  else if p = cpu1Path ++ "/scaling_available_frequencies" then some "300000 500000"
  else if p = cpu1Path ++ "/scaling_available_governors" then some "ondemand userspace"
  else none

/-- Concrete one-directory filesystem for witnesses about explicit paths. -/
def fsD : FS := fun p =>
  if p = "/d/scaling_available_frequencies" then some "200000 400000 600000 800000 1000000"
  else if p = "/d/scaling_available_governors" then some "conservative ondemand performance"
  else none

/-- The empty filesystem: every read raises `IOError`. -/
def fsNone : FS := fun _ => none

theorem numberedFrom_length (ps : List (String × String)) : ∀ n, (numberedFrom n ps).length = 2 * ps.length := by
  induction ps with
  | nil => intro n; rfl
  | cons hd tl ih =>
    intro n
    obtain ⟨p, d⟩ := hd
    simp [numberedFrom, ih (n + 1)]
    omega

theorem numberedFrom_append (ps qs : List (String × String)) :
    ∀ n, numberedFrom n (ps ++ qs) = numberedFrom n ps ++ numberedFrom (n + ps.length) qs := by
  induction ps with
  | nil => intro n; simp [numberedFrom]
  | cons hd tl ih =>
    intro n
    obtain ⟨p, d⟩ := hd
    simp [numberedFrom, ih (n + 1)]
    congr 1
    omega

theorem iniGet_iniSet_self (ini : Ini) (k : String) (v : List String) :
    iniGet (iniSet ini k v) k = some v := by
  induction ini with
  | nil => simp [iniSet, iniGet]
  | cons hd tl ih =>
    obtain ⟨k1, v1⟩ := hd
    by_cases h : k1 = k
    · simp [iniSet, iniGet, h]
    · simp [iniSet, iniGet, h, ih]

theorem iniGet_iniSet_ne (ini : Ini) (k : String) (v : List String) (k2 : String)
    (h : k2 ≠ k) : iniGet (iniSet ini k v) k2 = iniGet ini k2 := by
  induction ini with
  | nil => simp [iniSet, iniGet, Ne.symm h]
  | cons hd tl ih =>
    obtain ⟨k1, v1⟩ := hd
    by_cases h1 : k1 = k
    · subst h1
      simp [iniSet, iniGet, Ne.symm h]
    · by_cases h2 : k1 = k2
      · simp [iniSet, iniGet, h1, h2, h]
      · simp [iniSet, iniGet, h1, h2, ih]

theorem addVal_get_ne (ini : Ini) (s b p d key : String) (h : key ≠ secname s) :
    iniGet (addVal ini s b p d) key = iniGet ini key := by
  unfold addVal
  exact iniGet_iniSet_ne _ _ _ _ h

theorem addVal_get_self (ini : Ini) (s b p d : String) :
    iniGet (addVal ini s b p d) (secname s) =
      some ((iniGet ini (secname s)).getD [] ++
        [mkPathLine (((iniGet ini (secname s)).getD []).length / 2 + 1) (pyJoin b p),
         mkDataLine (((iniGet ini (secname s)).getD []).length / 2 + 1) d]) := by
  unfold addVal
  exact iniGet_iniSet_self _ _ _

theorem addVal_numbered (ini : Ini) (s b p d : String) (ps : List (String × String))
    (h : (iniGet ini (secname s)).getD [] = numberedFrom 1 ps) :
    (iniGet (addVal ini s b p d) (secname s)).getD [] =
      numberedFrom 1 (ps ++ [(pyJoin b p, d)]) := by
  rw [addVal_get_self, Option.getD_some, h, numberedFrom_length, numberedFrom_append]
  have h2 : 2 * ps.length / 2 + 1 = 1 + ps.length := by omega
  rw [h2]
  rfl

theorem select_congr (a a2 : List String) (h : ∀ s, s ∈ a ↔ s ∈ a2) :
    ∀ w, select a w = select a2 w := by
  intro w
  induction w with
  | nil => rfl
  | cons w1 ws ih =>
    by_cases hm : w1 ∈ a
    · have hm2 : w1 ∈ a2 := (h w1).mp hm
      simp [select, hm, hm2]
    · have hm2 : w1 ∉ a2 := fun hc => hm ((h w1).mpr hc)
      simp [select, hm, hm2, ih]

theorem select_eq_none_iff (a w : List String) :
    select a w = none ↔ ∀ s ∈ w, s ∉ a := by
  induction w with
  | nil => simp [select]
  | cons w1 ws ih =>
    by_cases hm : w1 ∈ a
    · simp [select, hm]
    · simp [select, hm, ih]

theorem select_eq_some (a : List String) :
    ∀ w g, select a w = some g →
      g ∈ a ∧ ∃ n, ∃ hn : n < w.length,
        w.get ⟨n, hn⟩ = g ∧ ∀ x ∈ w.take n, x ∉ a := by
  intro w
  induction w with
  | nil => intro g h; simp [select] at h
  | cons w1 ws ih =>
    intro g h
    by_cases hm : w1 ∈ a
    · simp [select, hm] at h
      subst h
      exact ⟨hm, 0, by simp, rfl, by simp⟩
    · simp [select, hm] at h
      obtain ⟨hg, n, hn, hget, hbefore⟩ := ih g h
      refine ⟨hg, n + 1, by simpa using hn, hget, ?_⟩
      intro x hx
      rcases List.mem_cons.mp (by simpa using hx) with h1 | h2
      · exact h1 ▸ hm
      · exact hbefore x h2

/-- C2: `select` returns the first preference-list entry present in the
available collection; it returns `None` exactly when no preference-list
entry is available; and the result depends on the available collection only
through membership, hence not on its order. -/
theorem governor_select_spec (available available2 wanted : List String)
    (hsub : ∀ s ∈ available, s ∈ available2) (hsub2 : ∀ s ∈ available2, s ∈ available) :
    select available wanted = select available2 wanted ∧
    (select available wanted = none ↔ ∀ s ∈ wanted, s ∉ available) ∧
    (∀ g, select available wanted = some g →
      g ∈ available ∧ ∃ n, ∃ hn : n < wanted.length,
        wanted.get ⟨n, hn⟩ = g ∧ ∀ x ∈ wanted.take n, x ∉ available) := by
  refine ⟨select_congr _ _ (fun s => ⟨hsub s, hsub2 s⟩) wanted,
    select_eq_none_iff _ _, fun g h => select_eq_some _ _ _ h⟩

/-- Witness for C2 at the spec's example: a permuted available set gives the
same selection. -/
theorem governor_select_spec_witness :
    select ["conservative", "ondemand", "performance"] PREFER_INTERACTIVE =
      select ["performance", "conservative", "ondemand"] PREFER_INTERACTIVE :=
  (governor_select_spec _ _ PREFER_INTERACTIVE (by decide) (by decide)).1

theorem freqMax_eq (freqs : List Int) (hne : freqs ≠ []) :
    freqMax freqs = .ok (freqs.getD (freqs.length - 1) 0) := by
  have hl : 0 < freqs.length := List.length_pos.mpr hne
  have h1 : ¬(0 ≤ (-1 : Int) ∧ (-1 : Int) < (freqs.length : Int)) := by omega
  have h2 : -(freqs.length : Int) ≤ (-1 : Int) ∧ (-1 : Int) < 0 := by omega
  unfold freqMax pyGet
  rw [dif_neg h1, dif_pos h2]
  congr 1
  simp only [show ((-1 : Int) + (freqs.length : Int)).toNat = freqs.length - 1 from by omega]
  rw [List.getD_eq_getElem _ _ (by omega), List.get_eq_getElem]

theorem freqMin_eq (freqs : List Int) (scale : Nat) (hne : freqs ≠ []) (hsc : scale ≤ 100) :
    freqMin freqs scale = .ok (freqs.getD ((freqs.length - 1) * scale / 100) 0) := by
  have hl : 0 < freqs.length := List.length_pos.mpr hne
  have hidx : (freqs.length - 1) * scale / 100 < freqs.length := by
    have hmul : (freqs.length - 1) * scale ≤ (freqs.length - 1) * 100 :=
      Nat.mul_le_mul_left _ hsc
    have hdiv : (freqs.length - 1) * scale / 100 ≤ (freqs.length - 1) * 100 / 100 :=
      Nat.div_le_div_right hmul
    rw [Nat.mul_div_cancel _ (by norm_num)] at hdiv
    omega
  have h3 : ((freqs.length : Int) - 1) = ((freqs.length - 1 : Nat) : Int) := by omega
  have hcast : Int.fdiv (((freqs.length : Int) - 1) * (scale : Int)) 100 =
      (((freqs.length - 1) * scale / 100 : Nat) : Int) := by
    rw [h3]
    exact_mod_cast (Int.ofNat_fdiv ((freqs.length - 1) * scale) 100).symm
  unfold freqMin
  rw [hcast, pyGet, dif_pos ⟨by omega, by exact_mod_cast hidx⟩]
  congr 1
  simp only [Int.toNat_ofNat]
  rw [List.getD_eq_getElem _ _ hidx, List.get_eq_getElem]

/-- C1: for a sorted nonempty frequency list and any scale percentage in
[0,100], the embedded calculation yields minimum `freqs[(M-1)*scale/100]`
(integer floor division) and maximum `freqs[M-1]`; scale 0 selects the head,
which is the smallest element, and scale 100 yields a minimum equal to the
maximum. -/
theorem freq_threshold_spec (freqs : List Int) (scale : Nat)
    (hsorted : List.Sorted (· ≤ ·) freqs) (hne : freqs ≠ []) (hsc : scale ≤ 100) :
    (freqs.length - 1) * scale / 100 < freqs.length ∧
    freqMax freqs = .ok (freqs.getD (freqs.length - 1) 0) ∧
    freqMin freqs scale = .ok (freqs.getD ((freqs.length - 1) * scale / 100) 0) ∧
    (scale = 0 → freqMin freqs scale = .ok (freqs.head hne) ∧ ∀ x ∈ freqs, freqs.head hne ≤ x) ∧
    (scale = 100 → freqMin freqs scale = freqMax freqs) := by
  have hl : 0 < freqs.length := List.length_pos.mpr hne
  have hidx : (freqs.length - 1) * scale / 100 < freqs.length := by
    have hmul : (freqs.length - 1) * scale ≤ (freqs.length - 1) * 100 :=
      Nat.mul_le_mul_left _ hsc
    have hdiv : (freqs.length - 1) * scale / 100 ≤ (freqs.length - 1) * 100 / 100 :=
      Nat.div_le_div_right hmul
    rw [Nat.mul_div_cancel _ (by norm_num)] at hdiv
    omega
  refine ⟨hidx, freqMax_eq freqs hne, freqMin_eq freqs scale hne hsc, ?_, ?_⟩
  · rintro rfl
    obtain ⟨a, t, rfl⟩ := List.exists_cons_of_ne_nil hne
    constructor
    · rw [freqMin_eq _ _ hne (by norm_num)]
      simp
    · intro x hx
      rcases List.mem_cons.mp hx with h | h
      · simp [h]
      · exact le_of_eq rfl |>.trans ((List.sorted_cons.mp hsorted).1 x h)
  · rintro rfl
    rw [freqMin_eq _ _ hne (by norm_num), freqMax_eq _ hne,
      Nat.mul_div_cancel _ (by norm_num)]

/-- Witness for C1 at the spec's worked example (M = 5, scale 80). -/
theorem freq_threshold_spec_witness :
    freqMax [200000, 400000, 600000, 800000, 1000000] = .ok 1000000 ∧
    freqMin [200000, 400000, 600000, 800000, 1000000] 80 = .ok 800000 := by
  obtain ⟨-, hmax, hmin, -, -⟩ :=
    freq_threshold_spec [200000, 400000, 600000, 800000, 1000000] 80
      (by decide) (by decide) (by decide)
  exact ⟨hmax, hmin⟩

theorem numbered_getD (ini : Ini) (h : Numbered ini) (k : String) :
    ∃ ps, (iniGet ini k).getD [] = numberedFrom 1 ps := by
  cases hin : iniGet ini k with
  | none => exact ⟨[], rfl⟩
  | some e =>
    obtain ⟨ps, hps⟩ := h _ _ hin
    exact ⟨ps, by rw [Option.getD_some, hps]⟩

theorem numbered_nil : Numbered [] := by
  intro key entry h
  simp [iniGet] at h

theorem addVal_numbered_inv (ini : Ini) (s b p d : String) (h : Numbered ini) :
    Numbered (addVal ini s b p d) := by
  intro key entry hget
  by_cases hk : key = secname s
  · subst hk
    obtain ⟨ps, hps⟩ := numbered_getD ini h (secname s)
    have h2 := addVal_numbered ini s b p d ps hps
    rw [addVal_get_self] at hget
    obtain rfl := (Option.some.inj hget).symm
    rw [addVal_get_self, Option.getD_some] at h2
    exact ⟨ps ++ [(pyJoin b p, d)], h2⟩
  · rw [addVal_get_ne _ _ _ _ _ _ hk] at hget
    exact h _ _ hget

theorem applyOps_numbered (ops : List AddOp) :
    ∀ ini, Numbered ini → Numbered (applyOps ini ops) := by
  induction ops with
  | nil => intro ini h; exact h
  | cons op rest ih =>
    intro ini h
    exact ih _ (addVal_numbered_inv _ _ _ _ _ h)

theorem applyOps_append (ops : List AddOp) (op : AddOp) :
    ∀ ini, applyOps ini (ops ++ [op]) =
      addVal (applyOps ini ops) op.sec op.base op.file op.dat := by
  induction ops with
  | nil => intro ini; rfl
  | cons op2 rest ih => intro ini; exact ih _

/-- C6: after any sequence of `add_val` calls starting from the empty
`INI_DATA`, every section is an alternating `pathN`/`dataN` run whose line
pairs carry matching suffixes numbered consecutively from 1; moreover, one
further `add_val` call appends exactly one pair to its own section using the
next free index, leaving every other section untouched. -/
theorem add_val_invariant (ops : List AddOp) :
    Numbered (applyOps [] ops) ∧
    ∀ op : AddOp,
      pairCount (applyOps [] (ops ++ [op])) (secname op.sec) =
        pairCount (applyOps [] ops) (secname op.sec) + 1 ∧
      iniGet (applyOps [] (ops ++ [op])) (secname op.sec) =
        some (((iniGet (applyOps [] ops) (secname op.sec)).getD []) ++
          [mkPathLine (pairCount (applyOps [] ops) (secname op.sec) + 1) (pyJoin op.base op.file),
           mkDataLine (pairCount (applyOps [] ops) (secname op.sec) + 1) op.dat]) ∧
      ∀ key, key ≠ secname op.sec →
        iniGet (applyOps [] (ops ++ [op])) key = iniGet (applyOps [] ops) key := by
  refine ⟨applyOps_numbered ops [] numbered_nil, fun op => ⟨?_, ?_, ?_⟩⟩
  · rw [applyOps_append]
    unfold pairCount
    rw [addVal_get_self, Option.getD_some]
    simp
  · rw [applyOps_append, addVal_get_self]
    unfold pairCount
    rfl
  · intro key hk
    rw [applyOps_append]
    exact addVal_get_ne _ _ _ _ _ _ hk

/-- Witness for C6: one concrete `add_val` call produces a section that is a
correctly numbered pair run. -/
theorem add_val_invariant_witness :
    ∃ ps, ["path1=/d/scaling_governor", "data1=performance"] = numberedFrom 1 ps := by
  have h := (add_val_invariant [⟨"Performance", "/d", "scaling_governor", "performance"⟩]).1
  exact h (secname "Performance") ["path1=/d/scaling_governor", "data1=performance"] (by decide)

theorem bind_ok {α β : Type} {x : Except PyErr α} {f : α → Except PyErr β} {b : β} :
    x >>= f = .ok b ↔ ∃ a, x = .ok a ∧ f a = .ok b := by
  cases x <;> simp [Bind.bind, Except.bind]

theorem generate_eq (fs : FS) (st : GenState) (d : String) :
    generate_config_data fs st d =
      match dirData fs d with
      | .ok fg => CONFIG_BLOCKS.foldlM (genBlock d fg.1 fg.2) st
      | .error e => .error e := by
  unfold generate_config_data dirData
  cases h1 : read_values fs (pyJoin d "scaling_available_frequencies") with
  | error e => simp only [h1, Bind.bind, Except.bind]
  | ok ftoks =>
    cases h2 : ftoks.mapM pyInt with
    | error e => simp only [h1, h2, Bind.bind, Except.bind]
    | ok freqs =>
      cases h3 : read_values fs (pyJoin d "scaling_available_governors") with
      | error e => simp only [h1, h2, h3, Bind.bind, Except.bind]
      | ok governors =>
        simp only [h1, h2, h3, Bind.bind, Except.bind, Pure.pure, Except.pure]

theorem genBlock_pairs {dirpath : String} {freqs : List Int} {governors : List String}
    {st st' : GenState} {blk : Nat × String × List String}
    (h : genBlock dirpath freqs governors st blk = .ok st') :
    (∀ ps, (iniGet st.ini (secname blk.2.1)).getD [] = numberedFrom 1 ps →
      (iniGet st'.ini (secname blk.2.1)).getD [] =
        numberedFrom 1 (ps ++ blockPairs dirpath freqs governors blk.1 blk.2.2)) ∧
    (∀ key, key ≠ secname blk.2.1 → iniGet st'.ini key = iniGet st.ini key) := by
  obtain ⟨scale, name, wanted⟩ := blk
  cases hmx : freqMax freqs with
  | error e =>
    simp only [genBlock, hmx] at h
    exact Except.noConfusion h
  | ok mx =>
    cases hmn : freqMin freqs scale with
    | error e =>
      simp only [genBlock, hmx, hmn] at h
      exact Except.noConfusion h
    | ok mn =>
      cases hsel : select governors wanted with
      | none =>
        simp only [genBlock, hmx, hmn, hsel, Except.ok.injEq] at h
        obtain rfl := h.symm
        constructor
        · intro ps hps
          simp only [blockPairs, hsel, hmx, hmn, List.nil_append]
          have h1 := addVal_numbered st.ini name dirpath "scaling_max_freq" (toString mx) ps hps
          have h2 := addVal_numbered _ name dirpath "scaling_min_freq" (toString mn) _ h1
          simpa [List.append_assoc] using h2
        · intro key hk
          rw [addVal_get_ne _ _ _ _ _ _ hk, addVal_get_ne _ _ _ _ _ _ hk]
      | some g =>
        by_cases hg : g = ""
        · simp only [genBlock, hmx, hmn, hsel] at h
          rw [if_pos hg] at h
          simp only [Except.ok.injEq] at h
          obtain rfl := h.symm
          constructor
          · intro ps hps
            simp only [blockPairs, hsel, hmx, hmn]
            rw [if_pos hg]
            simp only [List.nil_append]
            have h1 := addVal_numbered st.ini name dirpath "scaling_max_freq" (toString mx) ps hps
            have h2 := addVal_numbered _ name dirpath "scaling_min_freq" (toString mn) _ h1
            simpa [List.append_assoc] using h2
          · intro key hk
            rw [addVal_get_ne _ _ _ _ _ _ hk, addVal_get_ne _ _ _ _ _ _ hk]
        · simp only [genBlock, hmx, hmn, hsel] at h
          rw [if_neg hg] at h
          simp only [Except.ok.injEq] at h
          obtain rfl := h.symm
          constructor
          · intro ps hps
            simp only [blockPairs, hsel, hmx, hmn]
            rw [if_neg hg]
            have h1 := addVal_numbered st.ini name dirpath "scaling_governor" g ps hps
            have h2 := addVal_numbered _ name dirpath "scaling_max_freq" (toString mx) _ h1
            have h3 := addVal_numbered _ name dirpath "scaling_min_freq" (toString mn) _ h2
            simpa [List.append_assoc] using h3
          · intro key hk
            rw [addVal_get_ne _ _ _ _ _ _ hk, addVal_get_ne _ _ _ _ _ _ hk,
              addVal_get_ne _ _ _ _ _ _ hk]

theorem foldlM_blocks_ok {f : GenState → (Nat × String × List String) → Except PyErr GenState}
    {st st' : GenState} (h : CONFIG_BLOCKS.foldlM f st = .ok st') :
    ∃ s1 s2 s3, f st (80, "Performance", PREFER_PERFORMANCE) = .ok s1 ∧
      f s1 (50, "Interactive", PREFER_INTERACTIVE) = .ok s2 ∧
      f s2 (0, "Inactive", PREFER_INTERACTIVE) = .ok s3 ∧
      f s3 (0, "Powersave", PREFER_POWERSAVE) = .ok st' := by
  simp only [CONFIG_BLOCKS, List.foldlM_cons, List.foldlM_nil] at h
  rw [bind_ok] at h
  obtain ⟨s1, h1, h⟩ := h
  rw [bind_ok] at h
  obtain ⟨s2, h2, h⟩ := h
  rw [bind_ok] at h
  obtain ⟨s3, h3, h⟩ := h
  rw [bind_ok] at h
  obtain ⟨s4, h4, hp⟩ := h
  obtain rfl : s4 = st' := by simpa [Pure.pure, Except.pure] using hp
  exact ⟨s1, s2, s3, h1, h2, h3, h4⟩

theorem generate_pairs {fs : FS} {st st' : GenState} {d : String}
    (h : generate_config_data fs st d = .ok st')
    {scale : Nat} {name : String} {wanted : List String}
    (hmem : (scale, name, wanted) ∈ CONFIG_BLOCKS) :
    ∀ ps, (iniGet st.ini (secname name)).getD [] = numberedFrom 1 ps →
      (iniGet st'.ini (secname name)).getD [] =
        numberedFrom 1 (ps ++ dirPairs fs d scale wanted) := by
  rw [generate_eq] at h
  cases hd : dirData fs d with
  | error e => rw [hd] at h; exact absurd h (by simp)
  | ok fg =>
    rw [hd] at h
    obtain ⟨s1, s2, s3, h1, h2, h3, h4⟩ := foldlM_blocks_ok h
    intro ps hps
    unfold dirPairs
    rw [hd]
    simp only [CONFIG_BLOCKS, List.mem_cons, List.not_mem_nil, or_false] at hmem
    rcases hmem with hb | hb | hb | hb <;>
      (simp only [Prod.ext_iff] at hb; obtain ⟨rfl, rfl, rfl⟩ := hb)
    · rw [(genBlock_pairs h4).2 _ (by decide), (genBlock_pairs h3).2 _ (by decide),
        (genBlock_pairs h2).2 _ (by decide)]
      exact (genBlock_pairs h1).1 ps hps
    · rw [(genBlock_pairs h4).2 _ (by decide), (genBlock_pairs h3).2 _ (by decide)]
      exact (genBlock_pairs h2).1 ps (by rw [(genBlock_pairs h1).2 _ (by decide)]; exact hps)
    · rw [(genBlock_pairs h4).2 _ (by decide)]
      exact (genBlock_pairs h3).1 ps
        (by rw [(genBlock_pairs h2).2 _ (by decide), (genBlock_pairs h1).2 _ (by decide)]; exact hps)
    · exact (genBlock_pairs h4).1 ps
        (by rw [(genBlock_pairs h3).2 _ (by decide), (genBlock_pairs h2).2 _ (by decide),
          (genBlock_pairs h1).2 _ (by decide)]; exact hps)

theorem runExplicit_nil (fs : FS) (st : GenState) : runExplicit fs [] st = .ok st := rfl

theorem runExplicit_cons (fs : FS) (d : String) (ds : List String) (st : GenState) :
    runExplicit fs (d :: ds) st =
      generate_config_data fs st d >>= fun s => runExplicit fs ds s := by
  simp [runExplicit, List.foldlM_cons]

theorem runExplicit_pairs (fs : FS) (scale : Nat) (name : String) (wanted : List String)
    (hmem : (scale, name, wanted) ∈ CONFIG_BLOCKS) :
    ∀ (dirs : List String) (st st' : GenState) (ps : List (String × String)),
      runExplicit fs dirs st = .ok st' →
      (iniGet st.ini (secname name)).getD [] = numberedFrom 1 ps →
      (iniGet st'.ini (secname name)).getD [] =
        numberedFrom 1 (ps ++ dirs.flatMap (fun d => dirPairs fs d scale wanted)) := by
  intro dirs
  induction dirs with
  | nil =>
    intro st st' ps h hps
    obtain rfl : st = st' := by simpa [runExplicit, List.foldlM, Pure.pure, Except.pure] using h
    simpa using hps
  | cons d ds ih =>
    intro st st' ps h hps
    rw [runExplicit_cons, bind_ok] at h
    obtain ⟨s1, h1, h2⟩ := h
    have hmid := generate_pairs h1 hmem ps hps
    have hfin := ih s1 st' (ps ++ dirPairs fs d scale wanted) h2 hmid
    simpa [List.append_assoc] using hfin

theorem discover_probes (rp : String → String) (wt : String → Bool) :
    ∀ (gs : List String) (seen : List String),
      (discover rp wt seen gs).probes = firstSeen seen (gs.map rp) := by
  intro gs
  induction gs with
  | nil => intro seen; rfl
  | cons g gs ih =>
    intro seen
    by_cases hd : rp g ∈ seen
    · simp [discover, firstSeen, hd, ih]
    · by_cases hw : wt (pyJoin (rp g) "scaling_min_freq")
      · simp [discover, firstSeen, hd, hw, ih]
      · simp [discover, firstSeen, hd, hw, ih]

theorem discover_log (rp : String → String) (wt : String → Bool) :
    ∀ (gs : List String) (seen : List String),
      (discover rp wt seen gs).log = (discover rp wt seen gs).probes.map (tagLine wt) := by
  intro gs
  induction gs with
  | nil => intro seen; rfl
  | cons g gs ih =>
    intro seen
    by_cases hd : rp g ∈ seen
    · simp [discover, hd, ih]
    · by_cases hw : wt (pyJoin (rp g) "scaling_min_freq")
      · simp [discover, tagLine, hd, hw, ih]
      · simp [discover, tagLine, hd, hw, ih]

theorem discover_hits (rp : String → String) (wt : String → Bool) :
    ∀ (gs : List String) (seen : List String),
      (discover rp wt seen gs).hits =
        (discover rp wt seen gs).probes.filter (fun d => wt (pyJoin d "scaling_min_freq")) := by
  intro gs
  induction gs with
  | nil => intro seen; rfl
  | cons g gs ih =>
    intro seen
    by_cases hd : rp g ∈ seen
    · simp [discover, hd, ih]
    · by_cases hw : wt (pyJoin (rp g) "scaling_min_freq")
      · simp [discover, hd, hw, ih]
      · simp [discover, hd, hw, ih]

theorem firstSeen_count (c : String) :
    ∀ (l : List String) (seen : List String),
      (firstSeen seen l).count c = if c ∈ l ∧ c ∉ seen then 1 else 0 := by
  intro l
  induction l with
  | nil => intro seen; simp [firstSeen]
  | cons x xs ih =>
    intro seen
    by_cases hx : x ∈ seen
    · rw [firstSeen, if_pos hx, ih]
      by_cases hc : c = x
      · subst hc
        simp [hx]
      · simp [hc]
    · rw [firstSeen, if_neg hx]
      by_cases hc : c = x
      · subst hc
        rw [List.count_cons_self, ih]
        simp [hx]
      · rw [List.count_cons_of_ne hc, ih]
        simp [hc]

theorem count_filter_eq (p : String → Bool) (c : String) :
    ∀ l : List String, (l.filter p).count c = if p c then l.count c else 0 := by
  intro l
  induction l with
  | nil => simp
  | cons a l ih =>
    by_cases hca : c = a
    · subst hca
      by_cases hpa : p c
      · simp [List.filter_cons, hpa, ih]
      · simp [List.filter_cons, hpa, ih]
    · by_cases hpa : p a
      · simp [List.filter_cons, hpa, List.count_cons_of_ne hca, ih]
      · simp [List.filter_cons, hpa, List.count_cons_of_ne hca, ih]

/-- C4: in discovery mode, logical paths that resolve to the same canonical
path are probed exactly once (for the first logical occurrence), contribute
at most one entry to the hit set (exactly one when the write test passes,
none otherwise), and the inclusion/exclusion log lines follow first-seen
encounter order. -/
theorem dedup_spec (rp : String → String) (wt : String → Bool) (globList : List String)
    (p1 p2 : String) (h1 : p1 ∈ globList) (h2 : p2 ∈ globList) (hne : p1 ≠ p2)
    (hrp : rp p1 = rp p2) :
    (discover rp wt [] globList).probes.count (rp p1) = 1 ∧
    (discover rp wt [] globList).hits.count (rp p1) =
      (if wt (pyJoin (rp p1) "scaling_min_freq") then 1 else 0) ∧
    (discover rp wt [] globList).probes = firstSeen [] (globList.map rp) ∧
    (discover rp wt [] globList).log =
      (discover rp wt [] globList).probes.map (tagLine wt) := by
  have hp := discover_probes rp wt globList []
  have hcount : (firstSeen [] (globList.map rp)).count (rp p1) = 1 := by
    rw [firstSeen_count]
    have hmem : rp p1 ∈ globList.map rp := List.mem_map_of_mem rp h1
    simp [hmem]
  refine ⟨by rw [hp]; exact hcount, ?_, hp, discover_log rp wt globList []⟩
  rw [discover_hits, count_filter_eq, hp, hcount]

/-- Witness for C4: two aliased logical paths lead to a single probe of
their shared canonical directory. -/
theorem dedup_spec_witness :
    (discover (fun _ => "/c") (fun _ => true) [] ["/a", "/b"]).probes.count "/c" = 1 :=
  (dedup_spec (fun _ => "/c") (fun _ => true) ["/a", "/b"] "/a" "/b"
    (by decide) (by decide) (by decide) rfl).1

/-- C5: the write test preserves file contents whenever it reports success;
it reports failure (rather than raising) exactly when the file is missing,
unreadable, unwritable, or the write call fails; and a directory whose probe
file fails the write test is logged as excluded, left out of the hit set,
and discovery continues with the remaining glob matches. -/
theorem writetest_spec (f : FileState) (rp : String → String) (wt : String → Bool)
    (seen : List String) (g : String) (gs : List String)
    (hnew : rp g ∉ seen) (hfail : wt (pyJoin (rp g) "scaling_min_freq") = false) :
    ((writetest f).1 = true → (writetest f).2.content = f.content) ∧
    ((writetest f).1 = false ↔
      (f.present = false ∨ f.readable = false ∨ f.writable = false ∨ f.writeOpFails = true)) ∧
    discover rp wt seen (g :: gs) =
      ⟨rp g :: (discover rp wt (rp g :: seen) gs).probes,
       ("# excluding: " ++ rp g) :: (discover rp wt (rp g :: seen) gs).log,
       (discover rp wt (rp g :: seen) gs).hits⟩ := by
  refine ⟨?_, ?_, ?_⟩
  · intro h
    obtain ⟨p, r, w, wf, c⟩ := f
    cases p <;> cases r <;> cases w <;> cases wf <;> simp_all [writetest]
  · obtain ⟨p, r, w, wf, c⟩ := f
    cases p <;> cases r <;> cases w <;> cases wf <;> simp [writetest]
  · simp [discover, hnew, hfail]

/-- Witness for C5: a healthy probe file passes the write test with its
contents intact, while a failing directory is excluded and skipped. -/
theorem writetest_spec_witness :
    (writetest ⟨true, true, true, false, "1200000"⟩).2.content = "1200000" :=
  ((writetest_spec ⟨true, true, true, false, "1200000"⟩ (fun s => s) (fun _ => false)
    [] "/x" [] (by decide) rfl).1) (by decide)

/-- C7: when no preference-list governor is available for a config block,
the block appends the diagnostic line to stderr, omits the governor setting,
still adds the max- and min-frequency settings, and the block loop continues
with the remaining blocks. -/
theorem no_governor_block (scale : Nat) (name : String) (wanted : List String)
    (hmem : (scale, name, wanted) ∈ CONFIG_BLOCKS) (dirpath : String) (freqs : List Int)
    (governors : List String) (st : GenState) (rest : List (Nat × String × List String))
    (hne : freqs ≠ []) (hsel : select governors wanted = none) :
    genBlock dirpath freqs governors st (scale, name, wanted) = .ok
      ⟨addVal (addVal st.ini name dirpath "scaling_max_freq"
          (toString (freqs.getD (freqs.length - 1) 0)))
        name dirpath "scaling_min_freq"
          (toString (freqs.getD ((freqs.length - 1) * scale / 100) 0)),
       st.log ++ ["# no governor: " ++ dirpath]⟩ ∧
    List.foldlM (genBlock dirpath freqs governors) st ((scale, name, wanted) :: rest) =
      List.foldlM (genBlock dirpath freqs governors)
        ⟨addVal (addVal st.ini name dirpath "scaling_max_freq"
            (toString (freqs.getD (freqs.length - 1) 0)))
          name dirpath "scaling_min_freq"
            (toString (freqs.getD ((freqs.length - 1) * scale / 100) 0)),
         st.log ++ ["# no governor: " ++ dirpath]⟩ rest := by
  have hsc : scale ≤ 100 := by
    simp only [CONFIG_BLOCKS, List.mem_cons, List.not_mem_nil, or_false] at hmem
    rcases hmem with hb | hb | hb | hb <;>
      (rw [Prod.ext_iff] at hb; obtain ⟨hs, -⟩ := hb; omega)
  have hmx := freqMax_eq freqs hne
  have hmn := freqMin_eq freqs scale hne hsc
  have hgen : genBlock dirpath freqs governors st (scale, name, wanted) = .ok
      ⟨addVal (addVal st.ini name dirpath "scaling_max_freq"
          (toString (freqs.getD (freqs.length - 1) 0)))
        name dirpath "scaling_min_freq"
          (toString (freqs.getD ((freqs.length - 1) * scale / 100) 0)),
       st.log ++ ["# no governor: " ++ dirpath]⟩ := by
    simp only [genBlock, hmx, hmn, hsel]
  refine ⟨hgen, ?_⟩
  rw [List.foldlM_cons, hgen]
  simp [Bind.bind, Except.bind]

/-- Witness for C7: a directory advertising only an unknown governor gets
the diagnostic and both frequency settings. -/
theorem no_governor_block_witness :
    genBlock "/d" [100] ["foo"] initState (0, "Powersave", PREFER_POWERSAVE) = .ok
      ⟨addVal (addVal initState.ini "Powersave" "/d" "scaling_max_freq" (toString (100 : Int)))
        "Powersave" "/d" "scaling_min_freq" (toString (100 : Int)),
       initState.log ++ ["# no governor: /d"]⟩ :=
  (no_governor_block 0 "Powersave" PREFER_POWERSAVE (by decide) "/d" [100] ["foo"]
    initState [] (by decide) (by decide)).1

theorem gen_fails (fs : FS) (p : String)
    (hmiss : fs (pyJoin p "scaling_available_frequencies") = none ∨
      fs (pyJoin p "scaling_available_governors") = none) :
    ∀ st, ∃ e, generate_config_data fs st p = .error e := by
  intro st
  rcases hmiss with hm | hm
  · have hr : read_values fs (pyJoin p "scaling_available_frequencies") =
        .error (.ioError (pyJoin p "scaling_available_frequencies")) := by
      unfold read_values
      rw [hm]
    refine ⟨.ioError (pyJoin p "scaling_available_frequencies"), ?_⟩
    unfold generate_config_data
    simp only [hr, Bind.bind, Except.bind]
  · have hr : read_values fs (pyJoin p "scaling_available_governors") =
        .error (.ioError (pyJoin p "scaling_available_governors")) := by
      unfold read_values
      rw [hm]
    cases h1 : read_values fs (pyJoin p "scaling_available_frequencies") with
    | error e =>
      refine ⟨e, ?_⟩
      unfold generate_config_data
      simp only [h1, Bind.bind, Except.bind]
    | ok ftoks =>
      cases h2 : ftoks.mapM pyInt with
      | error e =>
        refine ⟨e, ?_⟩
        unfold generate_config_data
        simp only [h1, h2, Bind.bind, Except.bind]
      | ok freqs =>
        refine ⟨.ioError (pyJoin p "scaling_available_governors"), ?_⟩
        unfold generate_config_data
        simp only [h1, h2, hr, Bind.bind, Except.bind]

theorem runExplicit_fails (fs : FS) (p : String)
    (hgen : ∀ st, ∃ e, generate_config_data fs st p = .error e) :
    ∀ dirs, p ∈ dirs → ∀ st, ∃ e, runExplicit fs dirs st = .error e := by
  intro dirs
  induction dirs with
  | nil => intro h; simp at h
  | cons d ds ih =>
    intro hmem st
    rw [runExplicit_cons]
    rcases List.mem_cons.mp hmem with rfl | hmem2
    · obtain ⟨e, he⟩ := hgen st
      exact ⟨e, by rw [he]; simp [Bind.bind, Except.bind]⟩
    · cases hg : generate_config_data fs st d with
      | error e => exact ⟨e, by simp [Bind.bind, Except.bind]⟩
      | ok s1 =>
        obtain ⟨e, he⟩ := ih hmem2 s1
        exact ⟨e, by simpa [Bind.bind, Except.bind] using he⟩

/-- C8: whenever any processed directory (explicitly supplied or discovered)
is missing its frequency or governor enumeration file, the run stops with an
uncaught error and prints nothing to stdout. -/
theorem missing_enumeration_raises (fs : FS) (globList : List String) (rp : String → String)
    (wt : String → Bool) (argv : List String) (p : String)
    (hp : p ∈ effectivePaths globList rp wt argv)
    (hmiss : fs (pyJoin p "scaling_available_frequencies") = none ∨
      fs (pyJoin p "scaling_available_governors") = none) :
    ∃ e, (runMain fs globList rp wt argv).result = .error e ∧
      (runMain fs globList rp wt argv).stdoutLines = [] := by
  obtain ⟨e, he⟩ := runExplicit_fails fs p (gen_fails fs p hmiss) _ hp initState
  refine ⟨e, ?_, ?_⟩ <;> simp [runMain, he]

/-- Witness for C8: one explicit directory on an empty filesystem makes the
run raise before printing anything. -/
theorem missing_enumeration_raises_witness :
    ∃ e, (runMain fsNone [] (fun s => s) (fun _ => true) ["/d"]).result = .error e ∧
      (runMain fsNone [] (fun s => s) (fun _ => true) ["/d"]).stdoutLines = [] :=
  missing_enumeration_raises fsNone [] (fun s => s) (fun _ => true) ["/d"] "/d"
    (by decide) (Or.inl rfl)

/-- C9: when no explicit paths are given and discovery produces no writable
directory, the run prints exactly the header comment, a blank line and the
first section heading, then raises `KeyError` on the first section lookup;
it never prints a complete document. -/
theorem empty_discovery_keyerror (fs : FS) (globList : List String) (rp : String → String)
    (wt : String → Bool) (h : (discover rp wt [] globList).hits = []) :
    (runMain fs globList rp wt []).stdoutLines = [headerLine, "", secname "Performance"] ∧
    (runMain fs globList rp wt []).result = .error (.keyError (secname "Performance")) := by
  have hpaths : effectivePaths globList rp wt [] = [] := by
    rw [effectivePaths, if_pos rfl, h]
    decide
  have hrm : runMain fs globList rp wt [] =
      ⟨(render initState.ini).1, (discover rp wt [] globList).log ++ initState.log,
        (render initState.ini).2⟩ := by
    unfold runMain
    rw [hpaths]
    rfl
  constructor
  · rw [hrm]
    show (render initState.ini).1 = [headerLine, "", secname "Performance"]
    decide
  · rw [hrm]
    show (render initState.ini).2 = .error (.keyError (secname "Performance"))
    decide

/-- Witness for C9: an empty glob yields the three-line prefix and the
`KeyError`. -/
theorem empty_discovery_keyerror_witness :
    (runMain fsNone [] (fun s => s) (fun _ => true) []).stdoutLines =
      [headerLine, "", secname "Performance"] :=
  (empty_discovery_keyerror fsNone [] (fun s => s) (fun _ => true) (by decide)).1

/-- C10: with explicit command-line paths the discovery machinery is never
consulted (no canonical-path resolution, no deduplication, no write test —
the outcome is independent of all of them and the discovery log is empty),
and every listed path, duplicates included, contributes its full set of
settings to every scenario section in command-line order. -/
theorem explicit_paths_spec (fs : FS) (globList : List String) (rp : String → String)
    (wt : String → Bool) (argv : List String) (st' : GenState) (hne : argv ≠ [])
    (hok : runExplicit fs argv initState = .ok st') :
    (runMain fs globList rp wt argv).stdoutLines = (render st'.ini).1 ∧
    (runMain fs globList rp wt argv).stderrLines = st'.log ∧
    (runMain fs globList rp wt argv).result = (render st'.ini).2 ∧
    ∀ scale name wanted, (scale, name, wanted) ∈ CONFIG_BLOCKS →
      (iniGet st'.ini (secname name)).getD [] =
        numberedFrom 1 (argv.flatMap (fun d => dirPairs fs d scale wanted)) := by
  have hpaths : effectivePaths globList rp wt argv = argv := by
    rw [effectivePaths, if_neg hne]
  have hrm : runMain fs globList rp wt argv =
      ⟨(render st'.ini).1, [] ++ st'.log, (render st'.ini).2⟩ := by
    unfold runMain
    rw [hpaths, if_neg hne, hok]
  refine ⟨by rw [hrm], by rw [hrm]; simp, by rw [hrm], ?_⟩
  intro scale name wanted hmem
  have hfin := runExplicit_pairs fs scale name wanted hmem argv initState st' [] hok rfl
  simpa using hfin

/-- Witness for C10: the same directory listed twice contributes two full
setting groups, in argument order. -/
theorem explicit_paths_spec_witness :
    (iniGet (genIni (runExplicit fsD ["/d", "/d"] initState)) (secname "Performance")).getD [] =
      numberedFrom 1 ((["/d", "/d"]).flatMap (fun d => dirPairs fsD d 80 PREFER_PERFORMANCE)) := by
  have hisok : (runExplicit fsD ["/d", "/d"] initState).isOk = true := by decide
  cases hr : runExplicit fsD ["/d", "/d"] initState with
  | error e =>
    rw [hr] at hisok
    simp [Except.isOk, Except.toBool] at hisok
  | ok st' =>
    have h := (explicit_paths_spec fsD [] (fun s => s) (fun _ => true) ["/d", "/d"] st'
      (by decide) hr).2.2.2 80 "Performance" PREFER_PERFORMANCE (by decide)
    exact h

/-- C3 (amended): in discovery mode the generation loop iterates over
`hits.keys()`, the hash-table iteration order of the dict of included
canonical paths, so the per-section ordering of settings across directories
follows that dict order, not the discovery encounter order. -/
theorem discovery_order_spec (fs : FS) (globList : List String) (rp : String → String)
    (wt : String → Bool) (st' : GenState)
    (hok : runExplicit fs (pyDictKeys (discover rp wt [] globList).hits) initState = .ok st') :
    (runMain fs globList rp wt []).stdoutLines = (render st'.ini).1 ∧
    (runMain fs globList rp wt []).result = (render st'.ini).2 ∧
    ∀ scale name wanted, (scale, name, wanted) ∈ CONFIG_BLOCKS →
      (iniGet st'.ini (secname name)).getD [] =
        numberedFrom 1 ((pyDictKeys (discover rp wt [] globList).hits).flatMap
          (fun d => dirPairs fs d scale wanted)) := by
  have hpaths : effectivePaths globList rp wt [] =
      pyDictKeys (discover rp wt [] globList).hits := by
    rw [effectivePaths, if_pos rfl]
  have hrm : runMain fs globList rp wt [] =
      ⟨(render st'.ini).1, (discover rp wt [] globList).log ++ st'.log,
        (render st'.ini).2⟩ := by
    unfold runMain
    rw [hpaths, hok]
    rfl
  refine ⟨by rw [hrm], by rw [hrm], ?_⟩
  intro scale name wanted hmem
  have hfin := runExplicit_pairs fs scale name wanted hmem _ initState st' [] hok rfl
  simpa using hfin

/-- Counterexample for C3 as stated: with the realistic glob matches
`/sys/devices/system/cpu/cpu0/cpufreq` and `...cpu1/cpufreq` (two distinct
physical directories, both writable), discovery encounters cpu0 first, but
`hits.keys()` iterates the CPython hash table as cpu1 before cpu0, and the
Performance section lists cpu1's settings before cpu0's — not encounter
order. -/
theorem discovery_order_counterexample :
    (discover (fun s => s) (fun _ => true) [] [cpu0Path, cpu1Path]).hits =
      [cpu0Path, cpu1Path] ∧
    pyDictKeys (discover (fun s => s) (fun _ => true) [] [cpu0Path, cpu1Path]).hits =
      [cpu1Path, cpu0Path] ∧
    (iniGet (genIni (runExplicit fsC
        (pyDictKeys (discover (fun s => s) (fun _ => true) [] [cpu0Path, cpu1Path]).hits)
        initState)) (secname "Performance")).getD [] =
      numberedFrom 1 (dirPairs fsC cpu1Path 80 PREFER_PERFORMANCE ++
        dirPairs fsC cpu0Path 80 PREFER_PERFORMANCE) ∧
    numberedFrom 1 (dirPairs fsC cpu1Path 80 PREFER_PERFORMANCE ++
        dirPairs fsC cpu0Path 80 PREFER_PERFORMANCE) ≠
      numberedFrom 1 (dirPairs fsC cpu0Path 80 PREFER_PERFORMANCE ++
        dirPairs fsC cpu1Path 80 PREFER_PERFORMANCE) :=
  ⟨by decide, by decide, by decide, by decide⟩

/-- Witness for the amended C3: on the concrete two-cpu glob the Performance
section follows the dict iteration order of the included canonical paths. -/
theorem discovery_order_spec_witness :
    (iniGet (genIni (runExplicit fsC
        (pyDictKeys (discover (fun s => s) (fun _ => true) [] [cpu0Path, cpu1Path]).hits)
        initState)) (secname "Performance")).getD [] =
      numberedFrom 1
        ((pyDictKeys (discover (fun s => s) (fun _ => true) [] [cpu0Path, cpu1Path]).hits).flatMap
          (fun d => dirPairs fsC d 80 PREFER_PERFORMANCE)) := by
  have hisok : (runExplicit fsC
      (pyDictKeys (discover (fun s => s) (fun _ => true) [] [cpu0Path, cpu1Path]).hits)
      initState).isOk = true := by decide
  cases hr : runExplicit fsC
      (pyDictKeys (discover (fun s => s) (fun _ => true) [] [cpu0Path, cpu1Path]).hits)
      initState with
  | error e =>
    rw [hr] at hisok
    simp [Except.isOk, Except.toBool] at hisok
  | ok st' =>
    exact (discovery_order_spec fsC [cpu0Path, cpu1Path] (fun s => s) (fun _ => true) st'
      hr).2.2 80 "Performance" PREFER_PERFORMANCE (by decide)
